import Mathlib

/-!
Verification of the seymour wire-protocol codec (`src/lib.rs`).

The codec is shallowly embedded: Rust strings become Lean `String`,
`i64` becomes `Int` with explicit 64-bit range checks in the integer
parser, `Result<T, ParseMessageError>` becomes
`Except ParseMessageError T`, and `str::split(' ')` / `str::find(':')`
are reimplemented character by character with the same semantics.
-/

namespace Seymour

/-- Rust `str::split(' ')` on the character list of a string: splits on
every single space, keeping empty chunks, and yields one (possibly
empty) chunk even for the empty input. -/
def splitSp : List Char → List (List Char)
  | [] => [[]]
  | c :: rest =>
    if c = ' ' then [] :: splitSp rest
    else
      match splitSp rest with
      | [] => [[c]]
      | t :: ts => (c :: t) :: ts

/-- Tokenization used by both decoders: `value.split(' ').collect()`. -/
def tokenize (s : String) : List String :=
  (splitSp s.data).map String.mk

/-- Rust `value.find(':')` followed by slicing `value[..i]` /
`value[i + 1..]`: returns the characters strictly before the first
`':'` and the characters strictly after it, or `none` when the string
has no `':'`. -/
def splitAtColon : List Char → Option (List Char × List Char)
  | [] => none
  | c :: rest =>
    if c = ':' then some ([], rest)
    else
      match splitAtColon rest with
      | none => none
      | some (a, b) => some (c :: a, b)

/-- Value of an ASCII decimal digit character, `none` for any other
character (mirrors the per-character acceptance of Rust's
`i64::from_str`). -/
def digitVal (c : Char) : Option Nat :=
  if '0' ≤ c ∧ c ≤ '9' then some (c.toNat - 48) else none

/-- Accumulating decimal scan over a character list; fails on the first
non-digit character. -/
def parseNatFrom (acc : Nat) : List Char → Option Nat
  | [] => some acc
  | c :: cs =>
    match digitVal c with
    | some d => parseNatFrom (acc * 10 + d) cs
    | none => none

/-- Digit part of Rust `i64::from_str` after the optional sign: a
non-empty all-digit string whose value (with the sign applied) must fit
in 64 signed bits. -/
def parseI64core (neg : Bool) (cs : List Char) : Option Int :=
  if cs = [] then none
  else
    match parseNatFrom 0 cs with
    | none => none
    | some n =>
      let v : Int := if neg then -(n : Int) else (n : Int)
      if -9223372036854775808 ≤ v ∧ v ≤ 9223372036854775807 then some v else none

/-- Rust `i64::from_str`: optional `+`/`-` sign followed by at least one
decimal digit, rejecting overflow. -/
def parseI64 (s : String) : Option Int :=
  match s.data with
  | [] => none
  | c :: rest =>
    if c = '-' then parseI64core true rest
    else if c = '+' then parseI64core false rest
    else parseI64core false (c :: rest)

/-- ASCII character of a decimal digit. -/
def digitChar (d : Nat) : Char := Char.ofNat (48 + d)

/-- Decimal digit characters of `n`, most significant first (fuel-based
so the definition is structurally recursive and kernel-reducible). -/
def natReprAux : Nat → Nat → List Char
  | 0, _ => []
  | fuel + 1, n =>
    if n = 0 then [] else natReprAux fuel (n / 10) ++ [digitChar (n % 10)]

/-- Standard decimal rendering of a natural number. -/
def natReprChars (n : Nat) : List Char :=
  if n = 0 then ['0'] else natReprAux n n

/-- Rust `{}` formatting of an `i64`: optional leading `-`, then the
decimal digits. -/
def renderI64 (i : Int) : String :=
  if i < 0 then String.mk ('-' :: natReprChars i.natAbs)
  else String.mk (natReprChars i.natAbs)

/-- Rust `i64` range, as a constraint on the unbounded `Int` model. -/
def i64Range (i : Int) : Prop :=
  -9223372036854775808 ≤ i ∧ i ≤ 9223372036854775807

instance (i : Int) : Decidable (i64Range i) := by
  unfold i64Range; infer_instance

/-- `ParseMessageError` from `src/lib.rs`. -/
inductive ParseMessageError where
  | EmptyMessage
  | UnknownType (raw : String)
  | MissingArgument (name : String)
  | TooManyArguments (expected actual : Nat)
  | InvalidIntegerArgument (argument value : String)
  deriving DecidableEq, Repr

/-- The `thiserror`-generated `Display` rendering of each error, from the
`#[error("...")]` attributes on `ParseMessageError`. -/
def ParseMessageError.toMessage : ParseMessageError → String
  | .EmptyMessage => "empty message"
  | .UnknownType raw => "unknown message type \"" ++ raw ++ "\""
  | .MissingArgument name => "missing argument \"" ++ name ++ "\""
  | .TooManyArguments expected actual =>
      "too many arguments (expected " ++ toString expected ++ ", got " ++
        toString actual ++ ")"
  | .InvalidIntegerArgument argument value =>
      "invalid integer value \"" ++ value ++ "\" for argument \"" ++ argument ++ "\""

/-- `Command` from `src/lib.rs`. -/
inductive Command where
  | User (username : String)
  | ListSubscriptions
  | Subscribe (url : String)
  | Unsubscribe (id : Int)
  | ListUnread
  | MarkRead (id : Int)
  deriving DecidableEq, Repr

/-- `impl fmt::Display for Command`. -/
def Command.toWire : Command → String
  | .User username => "USER " ++ username
  | .ListSubscriptions => "LISTSUBSCRIPTIONS"
  | .Subscribe url => "SUBSCRIBE " ++ url
  | .Unsubscribe id => "UNSUBSCRIBE " ++ renderI64 id
  | .ListUnread => "LISTUNREAD"
  | .MarkRead id => "MARKREAD " ++ renderI64 id

/-- `check_arguments` from `src/lib.rs`: bounds only the maximum token
count; the first token is the verb/code. -/
def check_arguments (parts : List String) (expected : Nat) :
    Except ParseMessageError Unit :=
  if parts.length > expected + 1 then
    .error (.TooManyArguments expected (parts.length - 1))
  else .ok ()

/-- `at_position::<String>`: `String::from_str` is infallible, so only a
missing token can fail. -/
def at_position_str (parts : List String) (argumentName : String)
    (position : Nat) : Except ParseMessageError String :=
  match parts.get? position with
  | none => .error (.MissingArgument argumentName)
  | some tok => .ok tok

/-- `at_position::<i64>`: a missing token fails `MissingArgument`; a
token that is not a decimal `i64` fails `InvalidIntegerArgument`. -/
def at_position_i64 (parts : List String) (argumentName : String)
    (position : Nat) : Except ParseMessageError Int :=
  match parts.get? position with
  | none => .error (.MissingArgument argumentName)
  | some tok =>
    match parseI64 tok with
    | none => .error (.InvalidIntegerArgument argumentName tok)
    | some n => .ok n

/-- `impl FromStr for Command`. -/
def Command.fromStr (value : String) : Except ParseMessageError Command :=
  let parts := tokenize value
  match parts.head? with
  | none => .error .EmptyMessage
  | some command =>
    if command = "USER" then do
      check_arguments parts 1
      let username ← at_position_str parts "username" 1
      return .User username
    else if command = "LISTSUBSCRIPTIONS" then do
      check_arguments parts 0
      return .ListSubscriptions
    else if command = "SUBSCRIBE" then do
      check_arguments parts 1
      let url ← at_position_str parts "url" 1
      return .Subscribe url
    else if command = "UNSUBSCRIBE" then do
      check_arguments parts 1
      let id ← at_position_i64 parts "id" 1
      return .Unsubscribe id
    else if command = "LISTUNREAD" then do
      check_arguments parts 0
      return .ListUnread
    else if command = "MARKREAD" then do
      check_arguments parts 1
      let id ← at_position_i64 parts "id" 1
      return .MarkRead id
    else .error (.UnknownType command)

/-- `Response` from `src/lib.rs`. -/
inductive Response where
  | AckUser (id : Int)
  | StartSubscriptionList
  | Subscription (id : Int) (url : String)
  | StartEntryList
  | Entry (id feed_id : Int) (feed_url title url : String)
  | EndList
  | AckSubscribe
  | AckUnsubscribe
  | AckMarkRead
  | ResourceNotFound (message : String)
  | BadCommand (message : String)
  | NeedUser (message : String)
  | InternalError (message : String)
  deriving DecidableEq, Repr

/-- `impl fmt::Display for Response`. Note the `Entry` arm writes
`url` before the `:`-introduced `title`, and `InternalError` writes
code `51`. -/
def Response.toWire : Response → String
  | .AckUser id => "20 " ++ renderI64 id
  | .StartSubscriptionList => "21"
  | .Subscription id url => "22 " ++ renderI64 id ++ " " ++ url
  | .StartEntryList => "23"
  | .Entry id feed_id feed_url title url =>
      "24 " ++ renderI64 id ++ " " ++ renderI64 feed_id ++ " " ++ feed_url ++
        " " ++ url ++ " :" ++ title
  | .EndList => "25"
  | .AckSubscribe => "26"
  | .AckUnsubscribe => "27"
  | .AckMarkRead => "28"
  | .ResourceNotFound message => "40 " ++ message
  | .BadCommand message => "41 " ++ message
  | .NeedUser message => "42 " ++ message
  | .InternalError message => "51 " ++ message

/-- `impl FromStr for Response`. The code `24` branch re-slices the raw
line at its first `':'` and extracts `url` at position 5 of the
pre-colon tokens; the `InternalError` branch matches code `50`. -/
def Response.fromStr (value : String) : Except ParseMessageError Response :=
  let parts := tokenize value
  match parts.head? with
  | none => .error .EmptyMessage
  | some response =>
    if response = "20" then do
      check_arguments parts 1
      let id ← at_position_i64 parts "id" 1
      return .AckUser id
    else if response = "21" then do
      check_arguments parts 0
      return .StartSubscriptionList
    else if response = "22" then do
      check_arguments parts 2
      let id ← at_position_i64 parts "id" 1
      let url ← at_position_str parts "url" 2
      return .Subscription id url
    else if response = "23" then do
      check_arguments parts 0
      return .StartEntryList
    else if response = "24" then
      match splitAtColon value.data with
      | none => .error (.MissingArgument "title")
      | some (pre, post) => do
        let initial_parts := (splitSp pre).map String.mk
        let id ← at_position_i64 initial_parts "id" 1
        let feed_id ← at_position_i64 initial_parts "feed_id" 2
        let feed_url ← at_position_str initial_parts "feed_url" 3
        let url ← at_position_str initial_parts "url" 5
        let title := String.mk post
        return .Entry id feed_id feed_url title url
    else if response = "25" then do
      check_arguments parts 0
      return .EndList
    else if response = "26" then do
      check_arguments parts 0
      return .AckSubscribe
    else if response = "27" then do
      check_arguments parts 0
      return .AckUnsubscribe
    else if response = "28" then do
      check_arguments parts 0
      return .AckMarkRead
    else if response = "40" then do
      check_arguments parts 1
      let message ← at_position_str parts "message" 1
      return .ResourceNotFound message
    else if response = "41" then do
      check_arguments parts 1
      let message ← at_position_str parts "message" 1
      return .BadCommand message
    else if response = "42" then do
      check_arguments parts 1
      let message ← at_position_str parts "message" 1
      return .NeedUser message
    else if response = "50" then do
      check_arguments parts 1
      let message ← at_position_str parts "message" 1
      return .InternalError message
    else .error (.UnknownType response)

/-- `impl From<ParseMessageError> for Response`. -/
def Response.ofParseError (e : ParseMessageError) : Response :=
  .BadCommand e.toMessage

instance {ε α : Type} [DecidableEq ε] [DecidableEq α] : DecidableEq (Except ε α)
  | .error e, .error f =>
    if h : e = f then .isTrue (by rw [h])
    else .isFalse (by intro hh; injection hh; contradiction)


  | .error _, .ok _ => .isFalse (by intro hh; exact Except.noConfusion hh)
  | .ok _, .error _ => .isFalse (by intro hh; exact Except.noConfusion hh)
  | .ok a, .ok b =>
    if h : a = b then .isTrue (by rw [h])
    else .isFalse (by intro hh; injection hh; contradiction)

/-- The constraints under which a `Command` value survives the wire
round-trip: string payloads contain no space (tokenization is purely
positional) and integer payloads are genuine `i64` values. -/
def Command.wireSafe : Command → Prop
  | .User username => ' ' ∉ username.data
  | .ListSubscriptions => True
  | .Subscribe url => ' ' ∉ url.data
  | .Unsubscribe id => i64Range id
  | .ListUnread => True
  | .MarkRead id => i64Range id

/-- The constraints under which a `Response` value survives the wire
round-trip: string payloads contain no space, integer payloads are
genuine `i64` values, and the value is neither an `Entry` (whose decoder
reads `url` from the wrong position) nor an `InternalError` (encoded as
code `51` but decoded as code `50`). -/
def Response.wireSafe : Response → Prop
  | .AckUser id => i64Range id
  | .StartSubscriptionList => True
  | .Subscription id url => i64Range id ∧ ' ' ∉ url.data
  | .StartEntryList => True
  | .Entry _ _ _ _ _ => False
  | .EndList => True
  | .AckSubscribe => True
  | .AckUnsubscribe => True
  | .AckMarkRead => True
  | .ResourceNotFound message => ' ' ∉ message.data
  | .BadCommand message => ' ' ∉ message.data
  | .NeedUser message => ' ' ∉ message.data
  | .InternalError _ => False

instance (c : Command) : Decidable c.wireSafe := by
  cases c <;> (unfold Command.wireSafe; infer_instance)

instance (r : Response) : Decidable r.wireSafe := by
  cases r <;> (unfold Response.wireSafe; infer_instance)


end Seymour

namespace Seymour

/-! Basic facts about the string model. -/

theorem data_append (s t : String) : (s ++ t).data = s.data ++ t.data := rfl

theorem data_mk (l : List Char) : (String.mk l).data = l := rfl

theorem mk_data (s : String) : String.mk s.data = s := rfl

/-! Facts about the tokenizer `splitSp`. -/

theorem splitSp_ne_nil (cs : List Char) : splitSp cs ≠ [] := by
  induction cs with
  | nil => simp [splitSp]
  | cons c rest ih =>
    by_cases hc : c = ' '
    · simp [splitSp, hc]
    · cases h : splitSp rest with
      | nil => exact absurd h ih
      | cons t ts => simp [splitSp, hc, h]

theorem splitSp_append_nospace (a b : List Char) (h : ' ' ∉ a) :
    splitSp (a ++ b) = (a ++ (splitSp b).headI) :: (splitSp b).tail := by
  induction a with
  | nil =>
    cases hb : splitSp b with
    | nil => exact absurd hb (splitSp_ne_nil b)
    | cons t ts => simp [hb]
  | cons c a ih =>
    have hc : c ≠ ' ' := by
      intro hcc
      exact h (by simp [hcc])
    have h' : ' ' ∉ a := fun hm => h (List.mem_cons_of_mem _ hm)
    simp only [List.cons_append, splitSp, if_neg hc, List.append_eq]
    rw [ih h']

theorem splitSp_nospace (a : List Char) (h : ' ' ∉ a) : splitSp a = [a] := by
  have := splitSp_append_nospace a [] h
  simpa [splitSp] using this

theorem splitSp_append_space (a b : List Char) (h : ' ' ∉ a) :
    splitSp (a ++ ' ' :: b) = a :: splitSp b := by
  rw [splitSp_append_nospace a _ h]
  simp [splitSp]

/-! Facts about `splitAtColon`. -/

theorem splitAtColon_of_not_mem (cs : List Char) (h : ':' ∉ cs) :
    splitAtColon cs = none := by
  induction cs with
  | nil => rfl
  | cons c rest ih =>
    have hc : c ≠ ':' := by
      intro hcc
      exact h (by simp [hcc])
    have h' : ':' ∉ rest := fun hm => h (List.mem_cons_of_mem _ hm)
    simp [splitAtColon, hc, ih h']

theorem splitAtColon_append (a b : List Char) (h : ':' ∉ a) :
    splitAtColon (a ++ ':' :: b) = some (a, b) := by
  induction a with
  | nil => simp [splitAtColon]
  | cons c a ih =>
    have hc : c ≠ ':' := by
      intro hcc
      exact h (by simp [hcc])
    have h' : ':' ∉ a := fun hm => h (List.mem_cons_of_mem _ hm)
    simp [splitAtColon, hc, ih h']

/-! Facts about the decimal integer codec. -/

theorem digitVal_digitChar (d : Nat) (hd : d < 10) :
    digitVal (digitChar d) = some d := by
  interval_cases d <;> decide

theorem digitChar_ne (d : Nat) (hd : d < 10) :
    digitChar d ≠ ' ' ∧ digitChar d ≠ ':' ∧ digitChar d ≠ '-' ∧ digitChar d ≠ '+' := by
  interval_cases d <;> decide

theorem parseNatFrom_append (l1 l2 : List Char) (acc : Nat) :
    parseNatFrom acc (l1 ++ l2) =
      match parseNatFrom acc l1 with
      | none => none
      | some m => parseNatFrom m l2 := by
  induction l1 generalizing acc with
  | nil => simp [parseNatFrom]
  | cons c cs ih =>
    cases hd : digitVal c with
    | none => simp [parseNatFrom, hd]
    | some d => simp [parseNatFrom, hd, ih]

theorem parseNatFrom_natReprAux (fuel : Nat) :
    ∀ n acc, n ≤ fuel →
      parseNatFrom acc (natReprAux fuel n) =
        some (acc * 10 ^ (natReprAux fuel n).length + n) := by
  induction fuel with
  | zero =>
    intro n acc hn
    have h0 : n = 0 := Nat.le_zero.mp hn
    subst h0
    simp [natReprAux, parseNatFrom]
  | succ fuel ih =>
    intro n acc hn
    by_cases h0 : n = 0
    · simp [natReprAux, h0, parseNatFrom]
    · have hdiv : n / 10 ≤ fuel := by
        have : n / 10 < n := Nat.div_lt_self (Nat.pos_of_ne_zero h0) (by norm_num)
        omega
      have hm : n % 10 < 10 := Nat.mod_lt _ (by norm_num)
      rw [natReprAux, if_neg h0, parseNatFrom_append, ih (n / 10) acc hdiv]
      simp only [parseNatFrom, digitVal_digitChar _ hm, List.length_append,
        List.length_cons, List.length_nil]
      have hq : 10 * (n / 10) + n % 10 = n := Nat.div_add_mod n 10
      congr 1
      calc (acc * 10 ^ (natReprAux fuel (n / 10)).length + n / 10) * 10 + n % 10
          = acc * (10 ^ (natReprAux fuel (n / 10)).length * 10) +
              (10 * (n / 10) + n % 10) := by ring
        _ = acc * 10 ^ ((natReprAux fuel (n / 10)).length + (0 + 1)) + n := by
            rw [hq, pow_succ]

theorem parseNatFrom_natReprChars (n : Nat) :
    parseNatFrom 0 (natReprChars n) = some n := by
  by_cases h0 : n = 0
  · subst h0
    decide
  · rw [natReprChars, if_neg h0]
    have := parseNatFrom_natReprAux n n 0 le_rfl
    simpa using this

theorem natReprChars_ne_nil (n : Nat) : natReprChars n ≠ [] := by
  rw [natReprChars]
  by_cases h0 : n = 0
  · simp [h0]
  · rw [if_neg h0]
    cases n with
    | zero => exact absurd rfl h0
    | succ m =>
      rw [natReprAux, if_neg h0]
      simp

theorem mem_natReprAux (fuel : Nat) :
    ∀ n c, c ∈ natReprAux fuel n → ∃ d, d < 10 ∧ c = digitChar d := by
  induction fuel with
  | zero =>
    intro n c hc
    simp [natReprAux] at hc
  | succ fuel ih =>
    intro n c hc
    by_cases h0 : n = 0
    · simp [natReprAux, h0] at hc
    · rw [natReprAux, if_neg h0] at hc
      rcases List.mem_append.mp hc with h | h
      · exact ih _ _ h
      · simp at h
        exact ⟨n % 10, Nat.mod_lt _ (by norm_num), h⟩

theorem mem_natReprChars (n : Nat) (c : Char) (hc : c ∈ natReprChars n) :
    ∃ d, d < 10 ∧ c = digitChar d := by
  rw [natReprChars] at hc
  by_cases h0 : n = 0
  · rw [if_pos h0] at hc
    simp at hc
    exact ⟨0, by norm_num, by rw [hc]; decide⟩
  · rw [if_neg h0] at hc
    exact mem_natReprAux n n c hc

theorem renderI64_no_space_colon (i : Int) (c : Char)
    (hc : c ∈ (renderI64 i).data) : c ≠ ' ' ∧ c ≠ ':' := by
  rw [renderI64] at hc
  by_cases hi : i < 0
  · rw [if_pos hi] at hc
    rw [data_mk, List.mem_cons] at hc
    rcases hc with rfl | hc
    · exact ⟨by decide, by decide⟩
    · rcases mem_natReprChars _ _ hc with ⟨d, hd, rfl⟩
      exact ⟨(digitChar_ne d hd).1, (digitChar_ne d hd).2.1⟩
  · rw [if_neg hi, data_mk] at hc
    rcases mem_natReprChars _ _ hc with ⟨d, hd, rfl⟩
    exact ⟨(digitChar_ne d hd).1, (digitChar_ne d hd).2.1⟩

theorem renderI64_no_space (i : Int) : ' ' ∉ (renderI64 i).data := by
  intro hm
  exact (renderI64_no_space_colon i ' ' hm).1 rfl

theorem renderI64_no_colon (i : Int) : ':' ∉ (renderI64 i).data := by
  intro hm
  exact (renderI64_no_space_colon i ':' hm).2 rfl

theorem parseI64core_true_natReprChars (n : Nat)
    (hr : -9223372036854775808 ≤ -(n : Int) ∧ -(n : Int) ≤ 9223372036854775807) :
    parseI64core true (natReprChars n) = some (-(n : Int)) := by
  rw [parseI64core, if_neg (natReprChars_ne_nil n), parseNatFrom_natReprChars]
  show (if -9223372036854775808 ≤ -(n : Int) ∧ -(n : Int) ≤ 9223372036854775807
        then some (-(n : Int)) else none) = some (-(n : Int))
  rw [if_pos hr]

theorem parseI64core_false_natReprChars (n : Nat)
    (hr : -9223372036854775808 ≤ (n : Int) ∧ (n : Int) ≤ 9223372036854775807) :
    parseI64core false (natReprChars n) = some (n : Int) := by
  rw [parseI64core, if_neg (natReprChars_ne_nil n), parseNatFrom_natReprChars]
  show (if -9223372036854775808 ≤ (n : Int) ∧ (n : Int) ≤ 9223372036854775807
        then some ((n : Int)) else none) = some ((n : Int))
  rw [if_pos hr]

theorem parseI64_renderI64 (i : Int) (h : i64Range i) :
    parseI64 (renderI64 i) = some i := by
  obtain ⟨h1, h2⟩ := h
  by_cases hi : i < 0
  · have hv : -((i.natAbs : Nat) : Int) = i := by omega
    rw [renderI64, if_pos hi]
    have hstep : parseI64 (String.mk ('-' :: natReprChars i.natAbs)) =
        parseI64core true (natReprChars i.natAbs) := rfl
    rw [hstep, parseI64core_true_natReprChars i.natAbs (by omega), hv]
  · have hv : ((i.natAbs : Nat) : Int) = i := by omega
    rw [renderI64, if_neg hi]
    cases hnr : natReprChars i.natAbs with
    | nil => exact absurd hnr (natReprChars_ne_nil _)
    | cons c rest =>
      have hcmem : c ∈ natReprChars i.natAbs := by rw [hnr]; simp
      rcases mem_natReprChars _ _ hcmem with ⟨d, hd, rfl⟩
      have hstep : parseI64 (String.mk (digitChar d :: rest)) =
          if digitChar d = '-' then parseI64core true rest
          else if digitChar d = '+' then parseI64core false rest
          else parseI64core false (digitChar d :: rest) := rfl
      rw [hstep, if_neg (digitChar_ne d hd).2.2.1, if_neg (digitChar_ne d hd).2.2.2,
        ← hnr, parseI64core_false_natReprChars i.natAbs (by omega), hv]

end Seymour

namespace Seymour

end Seymour

namespace Seymour

/-! Tokenization of rendered lines. -/

theorem tokenize_two (p v u : String) (hpa : p.data = v.data ++ [' '])
    (hv : ' ' ∉ v.data) (hu : ' ' ∉ u.data) :
    tokenize (p ++ u) = [v, u] := by
  rw [tokenize, data_append, hpa, List.append_assoc,
    show ([' '] ++ u.data) = ' ' :: u.data from rfl,
    splitSp_append_space _ _ hv, splitSp_nospace _ hu]
  rfl

theorem tokenize_three (p v t u : String) (hpa : p.data = v.data ++ [' '])
    (hv : ' ' ∉ v.data) (ht : ' ' ∉ t.data) (hu : ' ' ∉ u.data) :
    tokenize (p ++ t ++ " " ++ u) = [v, t, u] := by
  have hd : (p ++ t ++ " " ++ u).data =
      v.data ++ ' ' :: (t.data ++ ' ' :: u.data) := by
    rw [data_append, data_append, data_append, hpa,
      show (" " : String).data = [' '] from rfl]
    simp
  rw [tokenize, hd, splitSp_append_space _ _ hv, splitSp_append_space _ _ ht,
    splitSp_nospace _ hu]
  rfl

theorem tokenize_head_of_data (value v : String) (b : List Char)
    (hd : value.data = v.data ++ ' ' :: b) (hv : ' ' ∉ v.data) :
    (tokenize value).head? = some v := by
  rw [tokenize, hd, splitSp_append_space _ _ hv]
  rfl

/-! Reduction of the positional extractors on known token lists. -/

theorem at_position_i64_ok (parts : List String) (name : String) (pos : Nat)
    (tok : String) (i : Int) (hget : parts.get? pos = some tok)
    (hp : parseI64 tok = some i) :
    at_position_i64 parts name pos = .ok i := by
  rw [at_position_i64, hget]
  show (match parseI64 tok with
    | none => Except.error (ParseMessageError.InvalidIntegerArgument name tok)
    | some n => Except.ok n) = Except.ok i
  rw [hp]

end Seymour

namespace Seymour

/-! Helper facts for the unreachability of `EmptyMessage`. -/

theorem tokenize_ne_nil (s : String) : tokenize s ≠ [] := by
  rw [tokenize]
  simp [splitSp_ne_nil]

theorem check_arguments_ne_empty (parts : List String) (n : Nat) :
    check_arguments parts n ≠ .error .EmptyMessage := by
  rw [check_arguments]
  split <;> simp

theorem at_position_str_ne_empty (parts : List String) (name : String) (pos : Nat) :
    at_position_str parts name pos ≠ .error .EmptyMessage := by
  rw [at_position_str]
  split <;> simp

theorem at_position_i64_ne_empty (parts : List String) (name : String) (pos : Nat) :
    at_position_i64 parts name pos ≠ .error .EmptyMessage := by
  rw [at_position_i64]
  split
  · simp
  · split <;> simp

theorem bind_ne_empty {α β : Type} (a : Except ParseMessageError α)
    (f : α → Except ParseMessageError β)
    (ha : a ≠ .error .EmptyMessage) (hf : ∀ x, f x ≠ .error .EmptyMessage) :
    (a >>= f) ≠ .error .EmptyMessage := by
  cases a with
  | error e =>
    have he : e ≠ .EmptyMessage := fun hE => ha (by rw [hE])
    have hred : (Except.error e >>= f : Except ParseMessageError β) =
        Except.error e := rfl
    rw [hred]
    intro h
    injection h with h'
    exact he h'
  | ok x =>
    have hred : (Except.ok x >>= f : Except ParseMessageError β) = f x := rfl
    rw [hred]
    exact hf x

theorem pure_ne_empty {α : Type} (x : α) :
    (pure x : Except ParseMessageError α) ≠ .error .EmptyMessage := by
  intro h
  exact Except.noConfusion h

end Seymour

namespace Seymour

/-- Claim C2, counterexample: `Response::from_str` on the line
`24 1 2 http://f.example :My Title` does not succeed — it returns the
error `MissingArgument("url")`, so the claimed `Ok` with
`title == "My Title"` is false. -/
theorem entry_example_line_not_ok :
    Response.fromStr "24 1 2 http://f.example :My Title" =
      .error (.MissingArgument "url") := by decide

/-- Claim C2, amended: on `24 1 2 http://f.example :My Title` the decoder
locates the first `':'` inside `http://f.example`, so the pre-colon part
is `24 1 2 http` and extraction of `url` at position 5 fails with
`MissingArgument("url")`. -/
theorem entry_example_line_first_colon :
    Response.fromStr "24 1 2 http://f.example :My Title" =
      .error (.MissingArgument "url") ∧
    splitAtColon ("24 1 2 http://f.example :My Title").data =
      some (("24 1 2 http").data, ("//f.example :My Title").data) := by decide

/-- Claim C3, counterexample: `Command::from_str("")` does not fail with
`EmptyMessage`. -/
theorem empty_command_not_emptyMessage :
    Command.fromStr "" ≠ .error .EmptyMessage := by decide

/-- Claim C3, amended: `Command::from_str("")` fails with
`UnknownType("")` — splitting the empty string on a space yields one
empty token, so the first-token lookup succeeds and the empty token is
an unknown verb. -/
theorem empty_command_unknownType :
    Command.fromStr "" = .error (.UnknownType "") := by decide

/-- Claim C6: `Command::from_str("USER")` fails with
`MissingArgument("username")` and `Command::from_str("USER a b")` fails
with `TooManyArguments{expected: 1, actual: 2}`. -/
theorem user_arity_errors :
    Command.fromStr "USER" = .error (.MissingArgument "username") ∧
    Command.fromStr "USER a b" = .error (.TooManyArguments 1 2) := by decide

/-- Claim C7: `Command::from_str("MARKREAD abc")` fails with
`InvalidIntegerArgument{argument: "id", value: "abc"}` and
`Command::from_str("MARKREAD 42")` succeeds as `MarkRead{id: 42}`. -/
theorem markread_parsing :
    Command.fromStr "MARKREAD abc" =
      .error (.InvalidIntegerArgument "id" "abc") ∧
    Command.fromStr "MARKREAD 42" = .ok (.MarkRead 42) := by decide

/-- Claim C8: every `ParseMessageError` converts to `BadCommand(m)` where
`m` is exactly the error's human-readable `Display` rendering, e.g.
`empty message` for `EmptyMessage` and `unknown message type "<raw>"`
for `UnknownType`. -/
theorem parse_error_to_response :
    (∀ e : ParseMessageError, Response.ofParseError e = .BadCommand e.toMessage) ∧
    ParseMessageError.toMessage .EmptyMessage = "empty message" ∧
    (∀ raw : String, ParseMessageError.toMessage (.UnknownType raw) =
      "unknown message type \"" ++ raw ++ "\"") :=
  ⟨fun _ => rfl, rfl, fun _ => rfl⟩

/-- Claim C9: the arity check fails with
`TooManyArguments{expected: n, actual: len(parts) - 1}` exactly when
`len(parts) - 1 > n` (the first token is the verb/code and is not
counted), and returns success otherwise. -/
theorem check_arguments_spec (parts : List String) (n : Nat) :
    (parts.length - 1 > n →
      check_arguments parts n = .error (.TooManyArguments n (parts.length - 1))) ∧
    (¬ parts.length - 1 > n → check_arguments parts n = .ok ()) := by
  constructor
  · intro h
    rw [check_arguments, if_pos (by omega)]
  · intro h
    rw [check_arguments, if_neg (by omega)]

/-- Witness for C9 at concrete inputs. -/
theorem check_arguments_spec_witness :
    check_arguments ["USER", "a", "b"] 1 = .error (.TooManyArguments 1 2) ∧
    check_arguments ["USER", "a"] 1 = .ok () :=
  ⟨(check_arguments_spec ["USER", "a", "b"] 1).1 (by decide),
   (check_arguments_spec ["USER", "a"] 1).2 (by decide)⟩

end Seymour

namespace Seymour

/-- Claim C10: for every input string, neither decoder ever returns
`EmptyMessage`: splitting any string (even the empty one) on a single
space yields at least one token, so the first-token lookup always
succeeds and the `EmptyMessage` branch is unreachable. -/
theorem emptyMessage_unreachable (s : String) :
    Command.fromStr s ≠ .error .EmptyMessage ∧
    Response.fromStr s ≠ .error .EmptyMessage := by
  constructor
  · cases htok : tokenize s with
    | nil => exact absurd htok (tokenize_ne_nil s)
    | cons t ts =>
      unfold Command.fromStr
      rw [htok]
      simp only []
      split
      · rename_i heq
        exact Option.noConfusion heq
      · rename_i command heq
        by_cases hc0 : command = "USER"
        · rw [if_pos hc0]
          exact bind_ne_empty _ _ (check_arguments_ne_empty _ _)
              (fun _ => bind_ne_empty _ _ (at_position_str_ne_empty _ _ _)
                (fun _ => pure_ne_empty _))
        rw [if_neg hc0]
        by_cases hc1 : command = "LISTSUBSCRIPTIONS"
        · rw [if_pos hc1]
          exact bind_ne_empty _ _ (check_arguments_ne_empty _ _)
              (fun _ => pure_ne_empty _)
        rw [if_neg hc1]
        by_cases hc2 : command = "SUBSCRIBE"
        · rw [if_pos hc2]
          exact bind_ne_empty _ _ (check_arguments_ne_empty _ _)
              (fun _ => bind_ne_empty _ _ (at_position_str_ne_empty _ _ _)
                (fun _ => pure_ne_empty _))
        rw [if_neg hc2]
        by_cases hc3 : command = "UNSUBSCRIBE"
        · rw [if_pos hc3]
          exact bind_ne_empty _ _ (check_arguments_ne_empty _ _)
              (fun _ => bind_ne_empty _ _ (at_position_i64_ne_empty _ _ _)
                (fun _ => pure_ne_empty _))
        rw [if_neg hc3]
        by_cases hc4 : command = "LISTUNREAD"
        · rw [if_pos hc4]
          exact bind_ne_empty _ _ (check_arguments_ne_empty _ _)
              (fun _ => pure_ne_empty _)
        rw [if_neg hc4]
        by_cases hc5 : command = "MARKREAD"
        · rw [if_pos hc5]
          exact bind_ne_empty _ _ (check_arguments_ne_empty _ _)
              (fun _ => bind_ne_empty _ _ (at_position_i64_ne_empty _ _ _)
                (fun _ => pure_ne_empty _))
        rw [if_neg hc5]
        intro h
        injection h with h'
        exact ParseMessageError.noConfusion h'
  · cases htok : tokenize s with
    | nil => exact absurd htok (tokenize_ne_nil s)
    | cons t ts =>
      unfold Response.fromStr
      rw [htok]
      simp only []
      split
      · rename_i heq
        exact Option.noConfusion heq
      · rename_i response heq
        by_cases hc0 : response = "20"
        · rw [if_pos hc0]
          exact bind_ne_empty _ _ (check_arguments_ne_empty _ _)
              (fun _ => bind_ne_empty _ _ (at_position_i64_ne_empty _ _ _)
                (fun _ => pure_ne_empty _))
        rw [if_neg hc0]
        by_cases hc1 : response = "21"
        · rw [if_pos hc1]
          exact bind_ne_empty _ _ (check_arguments_ne_empty _ _)
              (fun _ => pure_ne_empty _)
        rw [if_neg hc1]
        by_cases hc2 : response = "22"
        · rw [if_pos hc2]
          exact bind_ne_empty _ _ (check_arguments_ne_empty _ _)
              (fun _ => bind_ne_empty _ _ (at_position_i64_ne_empty _ _ _)
                (fun _ => bind_ne_empty _ _ (at_position_str_ne_empty _ _ _)
                  (fun _ => pure_ne_empty _)))
        rw [if_neg hc2]
        by_cases hc3 : response = "23"
        · rw [if_pos hc3]
          exact bind_ne_empty _ _ (check_arguments_ne_empty _ _)
              (fun _ => pure_ne_empty _)
        rw [if_neg hc3]
        by_cases hc4 : response = "24"
        · rw [if_pos hc4]
          split
          · intro h
            injection h with h'
            exact ParseMessageError.noConfusion h'
          · exact bind_ne_empty _ _ (at_position_i64_ne_empty _ _ _) (fun _ =>
              bind_ne_empty _ _ (at_position_i64_ne_empty _ _ _) (fun _ =>
                bind_ne_empty _ _ (at_position_str_ne_empty _ _ _) (fun _ =>
                  bind_ne_empty _ _ (at_position_str_ne_empty _ _ _) (fun _ =>
                    pure_ne_empty _))))
        rw [if_neg hc4]
        by_cases hc5 : response = "25"
        · rw [if_pos hc5]
          exact bind_ne_empty _ _ (check_arguments_ne_empty _ _)
              (fun _ => pure_ne_empty _)
        rw [if_neg hc5]
        by_cases hc6 : response = "26"
        · rw [if_pos hc6]
          exact bind_ne_empty _ _ (check_arguments_ne_empty _ _)
              (fun _ => pure_ne_empty _)
        rw [if_neg hc6]
        by_cases hc7 : response = "27"
        · rw [if_pos hc7]
          exact bind_ne_empty _ _ (check_arguments_ne_empty _ _)
              (fun _ => pure_ne_empty _)
        rw [if_neg hc7]
        by_cases hc8 : response = "28"
        · rw [if_pos hc8]
          exact bind_ne_empty _ _ (check_arguments_ne_empty _ _)
              (fun _ => pure_ne_empty _)
        rw [if_neg hc8]
        by_cases hc9 : response = "40"
        · rw [if_pos hc9]
          exact bind_ne_empty _ _ (check_arguments_ne_empty _ _)
              (fun _ => bind_ne_empty _ _ (at_position_str_ne_empty _ _ _)
                (fun _ => pure_ne_empty _))
        rw [if_neg hc9]
        by_cases hc10 : response = "41"
        · rw [if_pos hc10]
          exact bind_ne_empty _ _ (check_arguments_ne_empty _ _)
              (fun _ => bind_ne_empty _ _ (at_position_str_ne_empty _ _ _)
                (fun _ => pure_ne_empty _))
        rw [if_neg hc10]
        by_cases hc11 : response = "42"
        · rw [if_pos hc11]
          exact bind_ne_empty _ _ (check_arguments_ne_empty _ _)
              (fun _ => bind_ne_empty _ _ (at_position_str_ne_empty _ _ _)
                (fun _ => pure_ne_empty _))
        rw [if_neg hc11]
        by_cases hc12 : response = "50"
        · rw [if_pos hc12]
          exact bind_ne_empty _ _ (check_arguments_ne_empty _ _)
              (fun _ => bind_ne_empty _ _ (at_position_str_ne_empty _ _ _)
                (fun _ => pure_ne_empty _))
        rw [if_neg hc12]
        intro h
        injection h with h'
        exact ParseMessageError.noConfusion h'
end Seymour

namespace Seymour

/-! Per-constructor round-trip lemmas. -/

theorem fromStr_toWire_user (u : String) (hu : ' ' ∉ u.data) :
    Command.fromStr (Command.toWire (.User u)) = .ok (.User u) := by
  have htok : tokenize (Command.toWire (.User u)) = ["USER", u] :=
    tokenize_two "USER " "USER" u rfl (by decide) hu
  simp only [Command.fromStr, htok]
  rfl

theorem fromStr_toWire_subscribe (u : String) (hu : ' ' ∉ u.data) :
    Command.fromStr (Command.toWire (.Subscribe u)) = .ok (.Subscribe u) := by
  have htok : tokenize (Command.toWire (.Subscribe u)) = ["SUBSCRIBE", u] :=
    tokenize_two "SUBSCRIBE " "SUBSCRIBE" u rfl (by decide) hu
  simp only [Command.fromStr, htok]
  rfl

theorem fromStr_toWire_unsubscribe (i : Int) (hi : i64Range i) :
    Command.fromStr (Command.toWire (.Unsubscribe i)) = .ok (.Unsubscribe i) := by
  have htok : tokenize (Command.toWire (.Unsubscribe i)) = ["UNSUBSCRIBE", renderI64 i] :=
    tokenize_two "UNSUBSCRIBE " "UNSUBSCRIBE" (renderI64 i) rfl (by decide)
      (renderI64_no_space i)
  have h1 : Command.fromStr (Command.toWire (.Unsubscribe i)) =
      at_position_i64 ["UNSUBSCRIBE", renderI64 i] "id" 1 >>= fun id =>
        pure (Command.Unsubscribe id) := by
    simp only [Command.fromStr, htok]
    rfl
  have h2 : at_position_i64 ["UNSUBSCRIBE", renderI64 i] "id" 1 = .ok i :=
    at_position_i64_ok _ _ _ (renderI64 i) i rfl (parseI64_renderI64 i hi)
  rw [h1, h2]
  rfl

theorem fromStr_toWire_markread (i : Int) (hi : i64Range i) :
    Command.fromStr (Command.toWire (.MarkRead i)) = .ok (.MarkRead i) := by
  have htok : tokenize (Command.toWire (.MarkRead i)) = ["MARKREAD", renderI64 i] :=
    tokenize_two "MARKREAD " "MARKREAD" (renderI64 i) rfl (by decide)
      (renderI64_no_space i)
  have h1 : Command.fromStr (Command.toWire (.MarkRead i)) =
      at_position_i64 ["MARKREAD", renderI64 i] "id" 1 >>= fun id =>
        pure (Command.MarkRead id) := by
    simp only [Command.fromStr, htok]
    rfl
  have h2 : at_position_i64 ["MARKREAD", renderI64 i] "id" 1 = .ok i :=
    at_position_i64_ok _ _ _ (renderI64 i) i rfl (parseI64_renderI64 i hi)
  rw [h1, h2]
  rfl

theorem fromStr_toWire_ackuser (i : Int) (hi : i64Range i) :
    Response.fromStr (Response.toWire (.AckUser i)) = .ok (.AckUser i) := by
  have htok : tokenize (Response.toWire (.AckUser i)) = ["20", renderI64 i] :=
    tokenize_two "20 " "20" (renderI64 i) rfl (by decide) (renderI64_no_space i)
  have h1 : Response.fromStr (Response.toWire (.AckUser i)) =
      at_position_i64 ["20", renderI64 i] "id" 1 >>= fun id =>
        pure (Response.AckUser id) := by
    unfold Response.fromStr
    rw [htok]
    rfl
  have h2 : at_position_i64 ["20", renderI64 i] "id" 1 = .ok i :=
    at_position_i64_ok _ _ _ (renderI64 i) i rfl (parseI64_renderI64 i hi)
  rw [h1, h2]
  rfl

theorem fromStr_toWire_subscription (i : Int) (u : String)
    (hi : i64Range i) (hu : ' ' ∉ u.data) :
    Response.fromStr (Response.toWire (.Subscription i u)) = .ok (.Subscription i u) := by
  have htok : tokenize (Response.toWire (.Subscription i u)) =
      ["22", renderI64 i, u] :=
    tokenize_three "22 " "22" (renderI64 i) u rfl (by decide)
      (renderI64_no_space i) hu
  have h1 : Response.fromStr (Response.toWire (.Subscription i u)) =
      at_position_i64 ["22", renderI64 i, u] "id" 1 >>= fun id =>
        at_position_str ["22", renderI64 i, u] "url" 2 >>= fun url =>
          pure (Response.Subscription id url) := by
    unfold Response.fromStr
    rw [htok]
    rfl
  have h2 : at_position_i64 ["22", renderI64 i, u] "id" 1 = .ok i :=
    at_position_i64_ok _ _ _ (renderI64 i) i rfl (parseI64_renderI64 i hi)
  rw [h1, h2]
  rfl

theorem fromStr_toWire_resourcenotfound (m : String) (hm : ' ' ∉ m.data) :
    Response.fromStr (Response.toWire (.ResourceNotFound m)) =
      .ok (.ResourceNotFound m) := by
  have htok : tokenize (Response.toWire (.ResourceNotFound m)) = ["40", m] :=
    tokenize_two "40 " "40" m rfl (by decide) hm
  unfold Response.fromStr
  rw [htok]
  rfl

theorem fromStr_toWire_badcommand (m : String) (hm : ' ' ∉ m.data) :
    Response.fromStr (Response.toWire (.BadCommand m)) = .ok (.BadCommand m) := by
  have htok : tokenize (Response.toWire (.BadCommand m)) = ["41", m] :=
    tokenize_two "41 " "41" m rfl (by decide) hm
  unfold Response.fromStr
  rw [htok]
  rfl

theorem fromStr_toWire_needuser (m : String) (hm : ' ' ∉ m.data) :
    Response.fromStr (Response.toWire (.NeedUser m)) = .ok (.NeedUser m) := by
  have htok : tokenize (Response.toWire (.NeedUser m)) = ["42", m] :=
    tokenize_two "42 " "42" m rfl (by decide) hm
  unfold Response.fromStr
  rw [htok]
  rfl

end Seymour

namespace Seymour

/-- Claim C1, counterexample: the round-trip fails for constructible
values — a `User` whose username contains a space re-parses as
`TooManyArguments`, and every `InternalError` is rendered with code `51`
but the decoder only accepts code `50`, so it re-parses as
`UnknownType("51")`. -/
theorem roundtrip_counterexample :
    Command.fromStr (Command.toWire (.User "a b")) =
      .error (.TooManyArguments 1 2) ∧
    Response.fromStr (Response.toWire (.InternalError "x")) =
      .error (.UnknownType "51") := by decide

/-- Claim C1 (amended): the round-trip
`parse(render(v)) == Ok(v)` holds for every `Command` and every
`Response` other than `Entry`, provided the value's string payloads
contain no space character, its integer payloads are in the `i64`
range, and the response is not an `InternalError` (which is rendered
with code `51` but decoded under code `50`). -/
theorem roundtrip_wireSafe :
    (∀ c : Command, c.wireSafe → Command.fromStr c.toWire = .ok c) ∧
    (∀ r : Response, r.wireSafe → Response.fromStr r.toWire = .ok r) := by
  constructor
  · intro c hc
    cases c with
    | User u => exact fromStr_toWire_user u hc
    | ListSubscriptions => decide
    | Subscribe u => exact fromStr_toWire_subscribe u hc
    | Unsubscribe i => exact fromStr_toWire_unsubscribe i hc
    | ListUnread => decide
    | MarkRead i => exact fromStr_toWire_markread i hc
  · intro r hr
    cases r with
    | AckUser i => exact fromStr_toWire_ackuser i hr
    | StartSubscriptionList => decide
    | Subscription i u => exact fromStr_toWire_subscription i u hr.1 hr.2
    | StartEntryList => decide
    | Entry i fi fu t u => exact (hr : False).elim
    | EndList => decide
    | AckSubscribe => decide
    | AckUnsubscribe => decide
    | AckMarkRead => decide
    | ResourceNotFound m => exact fromStr_toWire_resourcenotfound m hr
    | BadCommand m => exact fromStr_toWire_badcommand m hr
    | NeedUser m => exact fromStr_toWire_needuser m hr
    | InternalError m => exact (hr : False).elim

/-- Witness for C1 at concrete inputs. -/
theorem roundtrip_wireSafe_witness :
    Command.fromStr (Command.toWire (.Unsubscribe 42)) = .ok (.Unsubscribe 42) ∧
    Response.fromStr (Response.toWire (.AckUser 7)) = .ok (.AckUser 7) :=
  ⟨roundtrip_wireSafe.1 (.Unsubscribe 42) (by decide),
   roundtrip_wireSafe.2 (.AckUser 7) (by decide)⟩

end Seymour

namespace Seymour

/-- Decoding a well-shaped `24` line whose pre-colon chunks `A` (id),
`B` (feed id), `F` (feed url) and `U` (url) are space- and colon-free:
the decoder takes `F` at position 3 and the empty token at position 5
produced by the space before `:`, so the decoded `url` is `""`. -/
theorem fromStr_entry_line (w : String) (A B F U : List Char) (t : String)
    (i fi : Int)
    (hw : w.data = '2' :: '4' :: ' ' ::
      (A ++ ' ' :: (B ++ ' ' :: (F ++ ' ' :: (U ++ ' ' :: ':' :: t.data)))))
    (hsA : ' ' ∉ A) (hsB : ' ' ∉ B) (hsF : ' ' ∉ F) (hsU : ' ' ∉ U)
    (hcA : ':' ∉ A) (hcB : ':' ∉ B) (hcF : ':' ∉ F) (hcU : ':' ∉ U)
    (hiA : parseI64 (String.mk A) = some i)
    (hiB : parseI64 (String.mk B) = some fi) :
    Response.fromStr w = .ok (.Entry i fi (String.mk F) t "") := by
  have hhead : (tokenize w).head? = some "24" := by
    refine tokenize_head_of_data w "24"
      (A ++ ' ' :: (B ++ ' ' :: (F ++ ' ' :: (U ++ ' ' :: ':' :: t.data)))) ?_ (by decide)
    rw [hw]
    rfl
  have hshape : w.data =
      ('2' :: '4' :: ' ' :: (A ++ ' ' :: (B ++ ' ' :: (F ++ ' ' :: (U ++ [' ']))))) ++
        ':' :: t.data := by
    rw [hw]
    simp
  have hprecolon : ':' ∉
      ('2' :: '4' :: ' ' :: (A ++ ' ' :: (B ++ ' ' :: (F ++ ' ' :: (U ++ [' ']))))) := by
    intro hm
    simp only [List.mem_cons, List.mem_append, List.not_mem_nil, or_false] at hm
    rcases hm with h | h | h | h | h | h | h | h | h
    · exact absurd h (by decide)
    · exact absurd h (by decide)
    · exact absurd h (by decide)
    · exact hcA h
    · exact absurd h (by decide)
    · exact hcB h
    · exact absurd h (by decide)
    · exact hcF h
    · rcases h with h | h | h
      · exact absurd h (by decide)
      · exact hcU h
      · exact absurd h (by decide)
  have hsplitc : splitAtColon w.data =
      some (('2' :: '4' :: ' ' :: (A ++ ' ' :: (B ++ ' ' :: (F ++ ' ' :: (U ++ [' ']))))),
        t.data) := by
    rw [hshape]
    exact splitAtColon_append _ _ hprecolon
  have hsp : (splitSp
      ('2' :: '4' :: ' ' :: (A ++ ' ' :: (B ++ ' ' :: (F ++ ' ' :: (U ++ [' '])))))).map
        String.mk = ["24", String.mk A, String.mk B, String.mk F, String.mk U, ""] := by
    show (splitSp (['2', '4'] ++ ' ' ::
      (A ++ ' ' :: (B ++ ' ' :: (F ++ ' ' :: (U ++ ' ' :: [])))))).map String.mk = _
    rw [splitSp_append_space _ _ (by decide), splitSp_append_space _ _ hsA,
      splitSp_append_space _ _ hsB, splitSp_append_space _ _ hsF,
      splitSp_append_space _ _ hsU]
    rfl
  have h1 : Response.fromStr w =
      (match splitAtColon w.data with
       | none => Except.error (.MissingArgument "title")
       | some (pre, post) =>
         at_position_i64 ((splitSp pre).map String.mk) "id" 1 >>= fun id =>
           at_position_i64 ((splitSp pre).map String.mk) "feed_id" 2 >>= fun feed_id =>
             at_position_str ((splitSp pre).map String.mk) "feed_url" 3 >>= fun feed_url =>
               at_position_str ((splitSp pre).map String.mk) "url" 5 >>= fun url =>
                 pure (Response.Entry id feed_id feed_url (String.mk post) url)) := by
    unfold Response.fromStr
    simp only []
    rw [hhead]
    rfl
  rw [h1, hsplitc]
  show (at_position_i64 ((splitSp _).map String.mk) "id" 1 >>= fun id =>
    at_position_i64 ((splitSp _).map String.mk) "feed_id" 2 >>= fun feed_id =>
      at_position_str ((splitSp _).map String.mk) "feed_url" 3 >>= fun feed_url =>
        at_position_str ((splitSp _).map String.mk) "url" 5 >>= fun url =>
          pure (Response.Entry id feed_id feed_url (String.mk t.data) url)) = _
  rw [hsp]
  rw [at_position_i64_ok ["24", String.mk A, String.mk B, String.mk F, String.mk U, ""]
        "id" 1 (String.mk A) i rfl hiA,
    at_position_i64_ok ["24", String.mk A, String.mk B, String.mk F, String.mk U, ""]
        "feed_id" 2 (String.mk B) fi rfl hiB]
  rfl

end Seymour

namespace Seymour

/-- Claim C4: for every `Entry` whose `feed_url` and `url` are
non-empty, space-free and colon-free and whose ids are `i64` values,
decoding the encoder's output succeeds, but the decoded `url` is the
empty string (the decoder reads the token one position further right
than where `feed_url` ends) rather than the original `url`, while `id`,
`feed_id`, `feed_url` and `title` are recovered. -/
theorem entry_roundtrip_drops_url (id feed_id : Int) (feed_url title url : String)
    (hid : i64Range id) (hfid : i64Range feed_id)
    (hfu : feed_url ≠ "" ∧ ' ' ∉ feed_url.data ∧ ':' ∉ feed_url.data)
    (hu : url ≠ "" ∧ ' ' ∉ url.data ∧ ':' ∉ url.data) :
    Response.fromStr (Response.toWire (.Entry id feed_id feed_url title url)) =
      .ok (.Entry id feed_id feed_url title "") ∧ ("" : String) ≠ url := by
  refine ⟨?_, fun h => hu.1 h.symm⟩
  have hw : (Response.toWire (.Entry id feed_id feed_url title url)).data =
      '2' :: '4' :: ' ' :: ((renderI64 id).data ++ ' ' :: ((renderI64 feed_id).data ++
        ' ' :: (feed_url.data ++ ' ' :: (url.data ++ ' ' :: ':' :: title.data)))) := by
    simp only [Response.toWire, data_append, List.append_assoc]
    rfl
  exact fromStr_entry_line _ (renderI64 id).data (renderI64 feed_id).data
    feed_url.data url.data title id feed_id hw
    (renderI64_no_space id) (renderI64_no_space feed_id) hfu.2.1 hu.2.1
    (renderI64_no_colon id) (renderI64_no_colon feed_id) hfu.2.2 hu.2.2
    (parseI64_renderI64 id hid) (parseI64_renderI64 feed_id hfid)

/-- Witness for C4 at concrete inputs. -/
theorem entry_roundtrip_drops_url_witness :
    Response.fromStr (Response.toWire (.Entry 3 4 "g.example" "My Title" "u.example")) =
      .ok (.Entry 3 4 "g.example" "My Title" "") ∧ ("" : String) ≠ "u.example" :=
  entry_roundtrip_drops_url 3 4 "g.example" "My Title" "u.example" (by decide) (by decide)
    ⟨by decide, by decide, by decide⟩ ⟨by decide, by decide, by decide⟩

end Seymour

namespace Seymour

/-- Claim C5: for every line whose first space-separated token is `24`:
if the line has no `':'` the decoder fails with
`MissingArgument("title")`; and whenever decoding succeeds as an
`Entry`, its `title` is exactly the substring after the first `':'` to
end-of-line, verbatim and not further tokenized. -/
theorem entry_title_decoding (value : String)
    (h24 : (tokenize value).head? = some "24") :
    (':' ∉ value.data → Response.fromStr value = .error (.MissingArgument "title")) ∧
    (∀ (pre post : List Char) (i fi : Int) (fu t u : String),
      splitAtColon value.data = some (pre, post) →
      Response.fromStr value = .ok (.Entry i fi fu t u) →
      t = String.mk post) := by
  have h1 : Response.fromStr value =
      (match splitAtColon value.data with
       | none => Except.error (.MissingArgument "title")
       | some (pre, post) =>
         at_position_i64 ((splitSp pre).map String.mk) "id" 1 >>= fun id =>
           at_position_i64 ((splitSp pre).map String.mk) "feed_id" 2 >>= fun feed_id =>
             at_position_str ((splitSp pre).map String.mk) "feed_url" 3 >>= fun feed_url =>
               at_position_str ((splitSp pre).map String.mk) "url" 5 >>= fun url =>
                 pure (Response.Entry id feed_id feed_url (String.mk post) url)) := by
    unfold Response.fromStr
    simp only []
    rw [h24]
    rfl
  constructor
  · intro hnc
    rw [h1, splitAtColon_of_not_mem _ hnc]
  · intro pre post i fi fu t u hsplit hok
    rw [h1, hsplit] at hok
    simp only [] at hok
    rcases hA : at_position_i64 ((splitSp pre).map String.mk) "id" 1 with eA | iA <;>
      rw [hA] at hok
    · exact absurd hok (by intro h; exact Except.noConfusion h)
    rcases hB : at_position_i64 ((splitSp pre).map String.mk) "feed_id" 2 with eB | iB <;>
      rw [hB] at hok
    · exact absurd hok (by intro h; exact Except.noConfusion h)
    rcases hC : at_position_str ((splitSp pre).map String.mk) "feed_url" 3 with eC | sC <;>
      rw [hC] at hok
    · exact absurd hok (by intro h; exact Except.noConfusion h)
    rcases hD : at_position_str ((splitSp pre).map String.mk) "url" 5 with eD | sD <;>
      rw [hD] at hok
    · exact absurd hok (by intro h; exact Except.noConfusion h)
    injection hok with hok'
    injection hok' with h1 h2 h3 h4 h5
    exact h4.symm

/-- Witness for C5 at a concrete input: a code-24 line without `':'`
fails with `MissingArgument("title")`. -/
theorem entry_title_decoding_witness :
    Response.fromStr "24 1 2 x" = .error (.MissingArgument "title") :=
  (entry_title_decoding "24 1 2 x" (by decide)).1 (by decide)

end Seymour

namespace Seymour

/-- Witness for C10 at a concrete input. -/
theorem emptyMessage_unreachable_witness :
    Command.fromStr "FOO" ≠ .error .EmptyMessage ∧
    Response.fromStr "FOO" ≠ .error .EmptyMessage :=
  emptyMessage_unreachable "FOO"

end Seymour
